import Mathlib

/-!
Verification of the miden-base transaction host and account identifier code.

The Rust sources are shallowly embedded: machine integers become `Nat` with
explicit masking where overflow or bit width matters, field elements become
`Fin feltP`, fallible functions return `Except`, Rust panics (assert macros)
become an explicit `panic` outcome, and `BTreeMap` becomes a sorted
association list.  External collaborators (the RPO hasher, the falcon-512
primitive, the VM advice provider internals) are parameters of the embedded
functions, as the specification treats them as black boxes.
-/

-- BASIC FIELD AND WORD TYPES
-- =================================================================================================

/-- The Miden prime: 2^64 - 2^32 + 1.  All VM scalars are canonical residues below it. -/
def feltP : Nat := 18446744069414584321

/-- A field element, stored in canonical form as in `Felt::as_int`. -/
abbrev Felt := Fin feltP

/-- Mirrors `Felt::new`, which reduces an arbitrary u64 modulo the prime. -/
def feltNew (n : Nat) : Felt := ⟨n % feltP, Nat.mod_lt _ (by decide)⟩

/-- Mirrors `Felt::from(x as u32)`: a u32 embeds exactly (it is below the prime). -/
def feltFromU32 (n : Nat) : Felt := feltNew (n % 4294967296)

/-- A `Word` is four field elements, as in the VM. -/
structure Word where
  w0 : Felt
  w1 : Felt
  w2 : Felt
  w3 : Felt
deriving DecidableEq

def zeroFelt : Felt := ⟨0, by decide⟩

def zeroWord : Word := ⟨zeroFelt, zeroFelt, zeroFelt, zeroFelt⟩

/-- The four elements of a word in order, as `Digest::as_elements` exposes them. -/
def Word.elems (w : Word) : List Felt := [w.w0, w.w1, w.w2, w.w3]

-- ASSOCIATION-LIST MAPS (shallow embedding of BTreeMap)
-- =================================================================================================

/-- Lookup in an association list, as `BTreeMap::get`. -/
def lookupA {κ α : Type} [DecidableEq κ] (k : κ) : List (κ × α) → Option α
  | [] => none
  | (k1, v) :: rest => if k = k1 then some v else lookupA k rest

/-- Insert-or-replace in an association list, as `BTreeMap::insert` (key order immaterial). -/
def insertA {κ α : Type} [DecidableEq κ] (k : κ) (v : α) : List (κ × α) → List (κ × α)
  | [] => [(k, v)]
  | (k1, v1) :: rest => if k = k1 then (k, v) :: rest else (k1, v1) :: insertA k v rest

/-- Remove a key from an association list, as `BTreeMap::remove`. -/
def eraseA {κ α : Type} [DecidableEq κ] (k : κ) : List (κ × α) → List (κ × α)
  | [] => []
  | (k1, v1) :: rest => if k = k1 then rest else (k1, v1) :: eraseA k rest

/-- Insert into an association list sorted by `Nat` key, preserving the sorted order in
which `BTreeMap` iterates (used for the host's `output_notes` map, whose iteration
order is observable through `into_parts`). -/
def btreeInsert {α : Type} (k : Nat) (v : α) : List (Nat × α) → List (Nat × α)
  | [] => [(k, v)]
  | (k1, v1) :: rest =>
    if k < k1 then (k, v) :: (k1, v1) :: rest
    else if k = k1 then (k, v) :: rest
    else (k1, v1) :: btreeInsert k v rest

/-- Lookup by `Nat` key in a sorted association list, as `BTreeMap::get`. -/
def btreeLookup {α : Type} (k : Nat) : List (Nat × α) → Option α
  | [] => none
  | (k1, v) :: rest => if k = k1 then some v else btreeLookup k rest

-- BIT-COUNTING HELPERS (u64 semantics)
-- =================================================================================================

/-- Fuel-driven popcount; 64 steps cover every u64, matching `u64::count_ones`. -/
def popcountGo : Nat → Nat → Nat
  | 0, _ => 0
  | fuel + 1, n => n % 2 + popcountGo fuel (n / 2)

/-- Mirrors `u64::count_ones` for values below 2^64. -/
def popcount (n : Nat) : Nat := popcountGo 64 n

/-- Fuel-driven trailing-zero count. -/
def trailingZerosGo : Nat → Nat → Nat
  | 0, _ => 0
  | fuel + 1, n => if n % 2 = 0 then trailingZerosGo fuel (n / 2) + 1 else 0

/-- Mirrors `u64::trailing_zeros` for values below 2^64 (64 on input 0). -/
def trailingZeros64 (n : Nat) : Nat := trailingZerosGo 64 n

-- ACCOUNT ID CONSTANTS (objects/src/accounts/account_id.rs)
-- =================================================================================================

def ACCOUNT_STORAGE_MASK_SHIFT : Nat := 62

def ACCOUNT_STORAGE_MASK : Nat := 3 <<< ACCOUNT_STORAGE_MASK_SHIFT

def ACCOUNT_TYPE_MASK_SHIFT : Nat := 60

def ACCOUNT_TYPE_MASK : Nat := 3 <<< ACCOUNT_TYPE_MASK_SHIFT

def FUNGIBLE_FAUCET : Nat := 2

def NON_FUNGIBLE_FAUCET : Nat := 3

def REGULAR_ACCOUNT_IMMUTABLE_CODE : Nat := 0

def REGULAR_ACCOUNT_UPDATABLE_CODE : Nat := 1

def ON_CHAIN : Nat := 0

def OFF_CHAIN : Nat := 2

inductive AccountType where
  | fungibleFaucet
  | nonFungibleFaucet
  | regularAccountImmutableCode
  | regularAccountUpdatableCode
deriving DecidableEq

/-- Mirrors `impl From<u64> for AccountType`.  The two masked bits always fall in
0..=3, so the Rust `unreachable!` default collapses into the last branch. -/
def AccountType.fromU64 (value : Nat) : AccountType :=
  let bits := (value &&& ACCOUNT_TYPE_MASK) >>> ACCOUNT_TYPE_MASK_SHIFT
  if bits = REGULAR_ACCOUNT_UPDATABLE_CODE then .regularAccountUpdatableCode
  else if bits = REGULAR_ACCOUNT_IMMUTABLE_CODE then .regularAccountImmutableCode
  else if bits = FUNGIBLE_FAUCET then .fungibleFaucet
  else .nonFungibleFaucet

/-- Mirrors the free function `is_regular_account`. -/
def isRegularAccount (accountId : Nat) : Bool :=
  match AccountType.fromU64 accountId with
  | .regularAccountUpdatableCode => true
  | .regularAccountImmutableCode => true
  | _ => false

inductive AccountError where
  | accountIdTooFewOnes (expected actual : Nat)
  | invalidAccountStorageType
  | seedDigestTooFewTrailingZeros (expected actual : Nat)
  | hexParseError (msg : String)
  | accountIdInvalidFieldElement (msg : String)
deriving DecidableEq

/-- An account identifier: one field element, as `AccountId(Felt)`. -/
structure AccountId where
  val : Felt
deriving DecidableEq

/-- Minimum number of one bits for a valid account id (`AccountId::MIN_ACCOUNT_ONES`). -/
def MIN_ACCOUNT_ONES : Nat := 5

/-- Trailing-zero bound for regular accounts (the non-testing build constant). -/
def REGULAR_ACCOUNT_SEED_DIGEST_MIN_TRAILING_ZEROS : Nat := 23

/-- Trailing-zero bound for faucet accounts (the non-testing build constant). -/
def FAUCET_SEED_DIGEST_MIN_TRAILING_ZEROS : Nat := 31

/-- Mirrors `impl TryFrom<Felt> for AccountId`. -/
def AccountId.tryFromFelt (value : Felt) : Except AccountError AccountId :=
  let intValue := value.val
  let count := popcount intValue
  if count < MIN_ACCOUNT_ONES then
    .error (.accountIdTooFewOnes MIN_ACCOUNT_ONES count)
  else
    let bits := (intValue &&& ACCOUNT_STORAGE_MASK) >>> ACCOUNT_STORAGE_MASK_SHIFT
    if bits = ON_CHAIN ∨ bits = OFF_CHAIN then .ok ⟨value⟩
    else .error .invalidAccountStorageType

/-- Mirrors `digest_pow`: trailing zeros of the last digest element. -/
def digestPow (digest : Word) : Nat := trailingZeros64 digest.w3.val

/-- Mirrors `AccountId::validate_seed_digest`. -/
def AccountId.validateSeedDigest (digest : Word) : Except AccountError Unit :=
  let requiredZeros :=
    if isRegularAccount digest.w0.val then REGULAR_ACCOUNT_SEED_DIGEST_MIN_TRAILING_ZEROS
    else FAUCET_SEED_DIGEST_MIN_TRAILING_ZEROS
  let trailingZeros := digestPow digest
  if requiredZeros > trailingZeros then
    .error (.seedDigestTooFewTrailingZeros requiredZeros trailingZeros)
  else .ok ()

/-- Mirrors `compute_digest`: a sequential hash over seed, code root, storage root and
zero padding to 16 elements.  The RPO hash itself is an external primitive and is
passed in as `hashElements`. -/
def computeDigest (hashElements : List Felt → Word) (seed codeRoot storageRoot : Word) : Word :=
  hashElements (seed.elems ++ codeRoot.elems ++ storageRoot.elems ++ [zeroFelt, zeroFelt, zeroFelt, zeroFelt])

/-- Mirrors `AccountId::new`, parameterized by the external hash primitive. -/
def AccountId.new (hashElements : List Felt → Word) (seed codeRoot storageRoot : Word) :
    Except AccountError AccountId :=
  let seedDigest := computeDigest hashElements seed codeRoot storageRoot
  match AccountId.validateSeedDigest seedDigest with
  | .error e => .error e
  | .ok _ => AccountId.tryFromFelt seedDigest.w0

-- HEX ENCODING (to_hex / from_hex)
-- =================================================================================================

/-- Lowercase hex digit, as the Rust format specifier `x` produces. -/
def hexChar (d : Nat) : Char :=
  if d < 10 then Char.ofNat (48 + d) else Char.ofNat (87 + d)

/-- The `k` low hex digits of `n`, most significant first, as `format "{:0kx}"` pads them. -/
def natToHexAux : Nat → Nat → List Char
  | 0, _ => []
  | k + 1, n => natToHexAux k (n / 16) ++ [hexChar (n % 16)]

/-- Mirrors `AccountId::to_hex`: the format string `0x{:016x}`. -/
def AccountId.toHex (id : AccountId) : String :=
  String.mk ('0' :: 'x' :: natToHexAux 16 id.val.val)

/-- Value of a single hex character (either case), as the hex parser accepts. -/
def hexDigitVal (c : Char) : Option Nat :=
  if 48 ≤ c.toNat ∧ c.toNat ≤ 57 then some (c.toNat - 48)
  else if 97 ≤ c.toNat ∧ c.toNat ≤ 102 then some (c.toNat - 87)
  else if 65 ≤ c.toNat ∧ c.toNat ≤ 70 then some (c.toNat - 55)
  else none

/-- Parse consecutive pairs of hex characters into bytes, most significant byte first. -/
def parseHexPairs : List Char → Option (List Nat)
  | [] => some []
  | c1 :: c2 :: rest =>
    match hexDigitVal c1, hexDigitVal c2, parseHexPairs rest with
    | some hi, some lo, some bs => some ((16 * hi + lo) :: bs)
    | _, _, _ => none
  | [_] => none

/-- Mirrors `hex_to_bytes::<8>`: a `0x` prefix followed by exactly 16 hex characters,
yielding 8 big-endian bytes. -/
def hexToBytes (s : String) : Option (List Nat) :=
  match s.data with
  | c0 :: c1 :: rest =>
    if c0 = '0' ∧ c1 = 'x' ∧ rest.length = 16 then parseHexPairs rest else none
  | _ => none

/-- Little-endian byte decoding, as `Felt::try_from(&[u8])` reads its input. -/
def bytesToNatLE : List Nat → Nat
  | [] => 0
  | b :: rest => b + 256 * bytesToNatLE rest

/-- The `k` low little-endian bytes of `n` (a specification device for the hex
round-trip proof). -/
def bytesLE : Nat → Nat → List Nat
  | 0, _ => []
  | k + 1, n => n % 256 :: bytesLE k (n / 256)

/-- Mirrors `AccountId::from_hex`: parse big-endian hex bytes, reverse them to
little-endian, read a field element (rejecting values at or above the prime),
then validate through `TryFrom<Felt>`. -/
def AccountId.fromHex (hexValue : String) : Except AccountError AccountId :=
  match hexToBytes hexValue with
  | none => .error (.hexParseError "failed to parse hex string")
  | some bytes =>
    let le := bytes.reverse
    let n := bytesToNatLE le
    if h : n < feltP then AccountId.tryFromFelt ⟨n, h⟩
    else .error (.accountIdInvalidFieldElement "value does not fit into a field element")

-- ERROR TAXONOMY (miden-tx/src/error.rs and external error enums used by the host)
-- =================================================================================================

abbrev AssetError := String

/-- Kernel-event-handler errors raised by the transaction host (the
`TransactionKernelError` variants the embedded handlers can produce).  The
`missingNote` payload carries the offending note index rather than its Rust
debug-format string. -/
inductive TransactionKernelError where
  | invalidStorageSlotIndex (idx : Nat)
  | malformedAsset (e : AssetError)
  | malformedAssetOnAccountVaultUpdate (e : AssetError)
  | missingNote (idx : Nat)
  | unknownAccountProcedure
deriving DecidableEq

/-- The kernel event vocabulary dispatched by `TransactionHost::on_event`
(the `TransactionEvent` enum of miden-lib, reproduced from the match arms). -/
inductive TransactionEvent where
  | accountVaultBeforeAddAsset
  | accountVaultAfterAddAsset
  | accountVaultBeforeRemoveAsset
  | accountVaultAfterRemoveAsset
  | accountStorageBeforeSetItem
  | accountStorageAfterSetItem
  | accountStorageBeforeSetMapItem
  | accountStorageAfterSetMapItem
  | accountBeforeIncrementNonce
  | accountAfterIncrementNonce
  | accountPushProcedureIndex
  | noteBeforeCreated
  | noteAfterCreated
  | noteBeforeAddAsset
  | noteAfterAddAsset
deriving DecidableEq

/-- The reason carried by an `ExecutionError::EventError` message: an event id that
does not decode, an event emitted outside the root context, or a wrapped kernel
error.  The Rust code distinguishes these through the message string. -/
inductive EventErrorKind where
  | unknownEventId (id : Nat)
  | notRootContext (event : TransactionEvent)
  | kernelError (e : TransactionKernelError)
deriving DecidableEq

/-- The VM execution-error variants the host produces. -/
inductive ExecutionError where
  | eventError (kind : EventErrorKind)
  | failedSignatureGeneration (msg : String)
  | failedAssertion (clk : Nat) (errCode : Nat) (errMsg : Option String)
deriving DecidableEq

/-- Authentication failures (miden-tx/src/error.rs). -/
inductive AuthenticationError where
  | internalError (msg : String)
  | rejectedSignature (msg : String)
  | unknownKey (msg : String)
deriving DecidableEq

/-- Outcome of a Rust host callback: success, a typed error, or a process panic
raised by an `assert` macro. -/
inductive Outcome (ε α : Type) where
  | ok (a : α)
  | err (e : ε)
  | panic (msg : String)
deriving DecidableEq

instance {ε α : Type} [DecidableEq ε] [DecidableEq α] : DecidableEq (Except ε α)
  | .ok a, .ok b => if h : a = b then isTrue (by rw [h]) else isFalse (by simp [h])
  | .ok _, .error _ => isFalse (by simp)
  | .error _, .ok _ => isFalse (by simp)
  | .error e, .error f => if h : e = f then isTrue (by rw [h]) else isFalse (by simp [h])

-- DOMAIN DATA (assets, events)
-- =================================================================================================

/-- An account asset, as the host consumes it after `Asset::try_from` (fungible
amount tied to a faucet id, or a non-fungible asset digest). -/
inductive Asset where
  | fungible (faucetId : Nat) (amount : Nat)
  | nonFungible (digest : Word)
deriving DecidableEq

-- ACCOUNT DELTA TRACKER
-- =================================================================================================

/-- Modelled from the spec: the `AccountDeltaTracker` of
miden-tx/src/host/account_delta_tracker.rs (a repository file not available
here).  Per the spec it accumulates a nonce delta set by the latest increment,
a storage tracker mapping slot index to the last-observed 4-element value, a
map tracker with last-write-wins per map key, and a vault tracker holding the
signed net fungible amount per faucet id and a signed presence counter per
non-fungible digest that collapses to no entry when the net is zero. -/
structure AccountDeltaTracker where
  nonceDelta : Option Felt
  storageSlots : List (Nat × Word)
  storageMaps : List (Nat × List (Word × Word))
  fungible : List (Nat × Int)
  nonFungible : List (Word × Int)
deriving DecidableEq

/-- Modelled from the spec: the tracker starts empty, built from the initial
account snapshot at host construction. -/
def AccountDeltaTracker.empty : AccountDeltaTracker :=
  { nonceDelta := none, storageSlots := [], storageMaps := [], fungible := [], nonFungible := [] }

/-- Modelled from the spec: `increment_nonce` records the latest increment value
observed (not a cumulative sum). -/
def AccountDeltaTracker.incrementNonce (t : AccountDeltaTracker) (value : Felt) :
    AccountDeltaTracker :=
  { t with nonceDelta := some value }

/-- Modelled from the spec: `slot_update` records the last-observed value for a
slot, updating in place on repeated events. -/
def AccountDeltaTracker.slotUpdate (t : AccountDeltaTracker) (slotIndex : Nat) (value : Word) :
    AccountDeltaTracker :=
  { t with storageSlots := btreeInsert slotIndex value t.storageSlots }

/-- Modelled from the spec: `maps_update` unconditionally records the key-value
pair for the slot's map, last write wins per key. -/
def AccountDeltaTracker.mapsUpdate (t : AccountDeltaTracker) (slotIndex : Nat)
    (key value : Word) : AccountDeltaTracker :=
  let m := (btreeLookup slotIndex t.storageMaps).getD []
  { t with storageMaps := btreeInsert slotIndex (insertA key value m) t.storageMaps }

/-- Update a signed counter map, dropping the entry when the net reaches zero
(the collapse behaviour the spec requires of the vault tracker). -/
def updateSigned {κ : Type} [DecidableEq κ] (k : κ) (d : Int) (m : List (κ × Int)) :
    List (κ × Int) :=
  let current := (lookupA k m).getD 0
  let updated := current + d
  if updated = 0 then eraseA k m else insertA k updated m

/-- Modelled from the spec: the vault tracker's asset addition. -/
def AccountDeltaTracker.addAsset (t : AccountDeltaTracker) (asset : Asset) :
    AccountDeltaTracker :=
  match asset with
  | .fungible faucetId amount => { t with fungible := updateSigned faucetId (amount : Int) t.fungible }
  | .nonFungible digest => { t with nonFungible := updateSigned digest 1 t.nonFungible }

/-- Modelled from the spec: the vault tracker's asset removal. -/
def AccountDeltaTracker.removeAsset (t : AccountDeltaTracker) (asset : Asset) :
    AccountDeltaTracker :=
  match asset with
  | .fungible faucetId amount => { t with fungible := updateSigned faucetId (-(amount : Int)) t.fungible }
  | .nonFungible digest => { t with nonFungible := updateSigned digest (-1) t.nonFungible }

/-- The immutable account delta produced at finalization. -/
structure AccountDelta where
  nonce : Option Felt
  storageSlots : List (Nat × Word)
  storageMaps : List (Nat × List (Word × Word))
  fungible : List (Nat × Int)
  nonFungible : List (Word × Int)
deriving DecidableEq

/-- Modelled from the spec: `into_delta` converts the tracker into the immutable diff. -/
def AccountDeltaTracker.intoDelta (t : AccountDeltaTracker) : AccountDelta :=
  { nonce := t.nonceDelta, storageSlots := t.storageSlots, storageMaps := t.storageMaps,
    fungible := t.fungible, nonFungible := t.nonFungible }

-- OUTPUT NOTE BUILDER
-- =================================================================================================

/-- Modelled from the spec: the `OutputNoteBuilder` of
miden-tx/src/host/note_builder.rs (a repository file not available here).  It
fixes the creation metadata (aux value, note type, sender account id, tag,
recipient digest) at creation and accumulates assets in emission order. -/
structure OutputNoteBuilder where
  aux : Felt
  noteType : Felt
  senderAcctId : Felt
  tag : Felt
  notePtr : Felt
  recipientDigest : Word
  assets : List Asset
deriving DecidableEq

/-- An immutable finalized output note. -/
structure OutputNote where
  aux : Felt
  noteType : Felt
  senderAcctId : Felt
  tag : Felt
  recipientDigest : Word
  assets : List Asset
deriving DecidableEq

/-- Modelled from the spec: `add_asset` appends one asset per event in emission
order (the per-note asset-count bound is enforced by a kernel assertion, not a
host-level error, so the builder itself does not fail here). -/
def OutputNoteBuilder.addAsset (b : OutputNoteBuilder) (asset : Asset) :
    Except TransactionKernelError OutputNoteBuilder :=
  .ok { b with assets := b.assets ++ [asset] }

/-- Modelled from the spec: `build` finalizes the builder into an immutable note. -/
def OutputNoteBuilder.build (b : OutputNoteBuilder) : OutputNote :=
  { aux := b.aux, noteType := b.noteType, senderAcctId := b.senderAcctId, tag := b.tag,
    recipientDigest := b.recipientDigest, assets := b.assets }

-- PROCESS STATE AND HOST STATE
-- =================================================================================================

/-- The root execution context id (`ContextId::root()` in the VM). -/
def rootContext : Nat := 0

/-- Read-only view of the VM process the host callbacks receive: operand-stack
element accessor (`get_stack_item`), word accessor (`get_stack_word`), the
current execution context, and the clock cycle. -/
structure ProcessState where
  stack : Nat → Felt
  stackWord : Nat → Word
  ctx : Nat
  clk : Nat

/-- Signature-producing capability as the host consumes it: the
`TransactionAuthenticator::get_signature` method, with the authenticator's
interior mutable randomness state of type `σ` threaded explicitly. -/
def AuthFn (σ : Type) :=
  σ → Word → Word → AccountDelta → (Except AuthenticationError (List Felt)) × σ

/-- The mutable state of a `TransactionHost`: the advice provider (its memoized
key-value map and its stack), the account delta tracker, the output-note
builders keyed by note index, the lazily populated account procedure index map,
the generated-signature cache, and the authenticator's randomness state. -/
structure HostState (σ : Type) where
  advMap : List (Word × List Felt)
  advStack : List Felt
  accountDelta : AccountDeltaTracker
  outputNotes : List (Nat × OutputNoteBuilder)
  procIndexMap : List (Word × Nat)
  generatedSignatures : List (Word × List Felt)
  authState : σ
deriving DecidableEq

/-- A freshly constructed host (`TransactionHost::new`): empty caches and an
empty delta tracker built from the initial account snapshot. -/
def HostState.initial {σ : Type} (authState : σ) : HostState σ :=
  { advMap := [], advStack := [], accountDelta := AccountDeltaTracker.empty,
    outputNotes := [], procIndexMap := [], generatedSignatures := [], authState := authState }

/-- Push elements onto the advice stack one by one, as the loop of
`push_stack(AdviceSource::Value(r))` calls does. -/
def pushAll (values : List Felt) (stack : List Felt) : List Felt :=
  values.foldl (fun s r => r :: s) stack

/-- The tuple returned by `TransactionHost::into_parts`: the advice provider,
the finalized delta, the finalized output notes in ascending note-index order
(`BTreeMap::into_values`), and the generated signatures. -/
structure TransactionParts where
  advMap : List (Word × List Felt)
  advStack : List Felt
  accountDelta : AccountDelta
  outputNotes : List OutputNote
  generatedSignatures : List (Word × List Felt)
deriving DecidableEq

/-- Mirrors `TransactionHost::into_parts`. -/
def TransactionHost.intoParts {σ : Type} (st : HostState σ) : TransactionParts :=
  { advMap := st.advMap, advStack := st.advStack,
    accountDelta := st.accountDelta.intoDelta,
    outputNotes := st.outputNotes.map (fun p => p.2.build),
    generatedSignatures := st.generatedSignatures }

-- EVENT HANDLERS (miden-tx/src/host/mod.rs)
-- =================================================================================================

/-- The number of account storage slots (`AccountStorage::NUM_STORAGE_SLOTS`,
a domain-object constant external to the host sources; the spec's storage
tracker ranges over slot indices 0..256). -/
def NUM_STORAGE_SLOTS : Nat := 256

/-- Modelled from the spec: construction of an `OutputNoteBuilder` from the
creation-event stack layout `[aux, note_type, sender_acct_id, tag, note_ptr,
RECIPIENT, note_idx]` (note_builder.rs is not available here; the resolution of
a note-level asset commitment through the advice provider is an external
concern with no bearing on the creation metadata recorded). -/
def OutputNoteBuilder.fromStack (ps : ProcessState) : OutputNoteBuilder :=
  { aux := ps.stack 0, noteType := ps.stack 1, senderAcctId := ps.stack 2, tag := ps.stack 3,
    notePtr := ps.stack 4,
    recipientDigest := ⟨ps.stack 8, ps.stack 7, ps.stack 6, ps.stack 5⟩,
    assets := [] }

/-- Modelled from the spec: `OutputNoteBuilder::new`, fallible in Rust. -/
def OutputNoteBuilder.new (ps : ProcessState) : Except TransactionKernelError OutputNoteBuilder :=
  .ok (OutputNoteBuilder.fromStack ps)

/-- Mirrors `on_note_after_created`: the note index is read from stack element 9,
asserted (Rust `assert_eq`, a panic on mismatch) to equal the number of notes
already created, and a fresh builder is stored under it. -/
def onNoteAfterCreated {σ : Type} (ps : ProcessState) (st : HostState σ) :
    Outcome TransactionKernelError (HostState σ) :=
  let noteIdx := (ps.stack 9).val
  if noteIdx = st.outputNotes.length then
    match OutputNoteBuilder.new ps with
    | .error e => .err e
    | .ok noteBuilder =>
      .ok { st with outputNotes := btreeInsert noteIdx noteBuilder st.outputNotes }
  else .panic "note index mismatch"

/-- Mirrors `on_note_before_add_asset`: the note index is read from stack element 6,
bounds-checked by a Rust `assert` macro (a panic on failure), the asset parsed
from the top stack word, and the asset appended to the builder under that index.
The `Asset::try_from` conversion is an external primitive passed as `parseAsset`. -/
def onNoteBeforeAddAsset {σ : Type} (parseAsset : Word → Except AssetError Asset)
    (ps : ProcessState) (st : HostState σ) : Outcome TransactionKernelError (HostState σ) :=
  let noteIdx := (ps.stack 6).val
  if noteIdx < st.outputNotes.length then
    match parseAsset (ps.stackWord 0) with
    | .error e => .err (.malformedAsset e)
    | .ok asset =>
      match btreeLookup noteIdx st.outputNotes with
      | none => .err (.missingNote noteIdx)
      | some noteBuilder =>
        match noteBuilder.addAsset asset with
        | .error e => .err e
        | .ok nb => .ok { st with outputNotes := btreeInsert noteIdx nb st.outputNotes }
  else .panic "assertion failed: note_idx < self.output_notes.len() as u64"

/-- Modelled from the spec: `AccountProcedureIndexMap::get_proc_index`
(account_procs.rs is not available here).  The requested procedure root is read
from the stack, served from the cache when present, and otherwise resolved by
walking the advice-backed Merkle path (the external `resolve` parameter); a
root absent from the account's procedure tree is a hard failure. -/
def getProcIndex (resolve : Word → Option Nat) (cache : List (Word × Nat))
    (ps : ProcessState) : Except TransactionKernelError (Nat × List (Word × Nat)) :=
  let procRoot := ps.stackWord 0
  match lookupA procRoot cache with
  | some idx => .ok (idx, cache)
  | none =>
    match resolve procRoot with
    | some idx => .ok (idx, insertA procRoot idx cache)
    | none => .error .unknownAccountProcedure

/-- Mirrors `on_account_push_procedure_index`: resolve the procedure index and
push it onto the advice stack. -/
def onAccountPushProcedureIndex {σ : Type} (resolve : Word → Option Nat)
    (ps : ProcessState) (st : HostState σ) : Outcome TransactionKernelError (HostState σ) :=
  match getProcIndex resolve st.procIndexMap ps with
  | .error e => .err e
  | .ok (procIdx, cache) =>
    .ok { st with procIndexMap := cache, advStack := feltNew procIdx :: st.advStack }

/-- Mirrors `on_account_before_increment_nonce`: record the nonce delta from the
top stack element. -/
def onAccountBeforeIncrementNonce {σ : Type} (ps : ProcessState) (st : HostState σ) :
    Outcome TransactionKernelError (HostState σ) :=
  .ok { st with accountDelta := st.accountDelta.incrementNonce (ps.stack 0) }

/-- Mirrors `on_account_storage_after_set_item`: bounds-check the slot index,
read the new value from stack elements 4..1 and the current value from 8..5,
and record the new value only when they differ. -/
def onAccountStorageAfterSetItem {σ : Type} (ps : ProcessState) (st : HostState σ) :
    Outcome TransactionKernelError (HostState σ) :=
  let slotIndex := ps.stack 0
  if slotIndex.val ≥ NUM_STORAGE_SLOTS then
    .err (.invalidStorageSlotIndex slotIndex.val)
  else
    let newSlotValue : Word := ⟨ps.stack 4, ps.stack 3, ps.stack 2, ps.stack 1⟩
    let currentSlotValue : Word := ⟨ps.stack 8, ps.stack 7, ps.stack 6, ps.stack 5⟩
    if currentSlotValue ≠ newSlotValue then
      .ok { st with accountDelta := st.accountDelta.slotUpdate slotIndex.val newSlotValue }
    else .ok st

/-- Mirrors `on_account_storage_after_set_map_item`: bounds-check the slot index,
read the new map key from stack elements 4..1 and the new map value from 8..5,
and record the pair unconditionally. -/
def onAccountStorageAfterSetMapItem {σ : Type} (ps : ProcessState) (st : HostState σ) :
    Outcome TransactionKernelError (HostState σ) :=
  let slotIndex := ps.stack 0
  if slotIndex.val ≥ NUM_STORAGE_SLOTS then
    .err (.invalidStorageSlotIndex slotIndex.val)
  else
    let newMapKey : Word := ⟨ps.stack 4, ps.stack 3, ps.stack 2, ps.stack 1⟩
    let newMapValue : Word := ⟨ps.stack 8, ps.stack 7, ps.stack 6, ps.stack 5⟩
    .ok { st with accountDelta := st.accountDelta.mapsUpdate slotIndex.val newMapKey newMapValue }

/-- Mirrors `on_account_vault_after_add_asset`. -/
def onAccountVaultAfterAddAsset {σ : Type} (parseAsset : Word → Except AssetError Asset)
    (ps : ProcessState) (st : HostState σ) : Outcome TransactionKernelError (HostState σ) :=
  match parseAsset (ps.stackWord 0) with
  | .error e => .err (.malformedAssetOnAccountVaultUpdate e)
  | .ok asset => .ok { st with accountDelta := st.accountDelta.addAsset asset }

/-- Mirrors `on_account_vault_after_remove_asset`. -/
def onAccountVaultAfterRemoveAsset {σ : Type} (parseAsset : Word → Except AssetError Asset)
    (ps : ProcessState) (st : HostState σ) : Outcome TransactionKernelError (HostState σ) :=
  match parseAsset (ps.stackWord 0) with
  | .error e => .err (.malformedAssetOnAccountVaultUpdate e)
  | .ok asset => .ok { st with accountDelta := st.accountDelta.removeAsset asset }

-- SIGNATURE REQUEST (on_signature_requested)
-- =================================================================================================

/-- Mirrors `on_signature_requested`.  The public key and message are the top two
stack words; their `Hasher::merge` digest (the external `hmerge` parameter) keys
the caches.  The advice provider's memoized map is consulted first; on a miss
the optional authenticator is invoked with the delta accumulated so far, the
fresh signature is recorded in `generated_signatures`, and either way the
signature elements are pushed onto the advice stack.  Mutations performed
before an error persist, so the state is returned alongside the result. -/
def onSignatureRequested {σ : Type} (hmerge : Word → Word → Word)
    (authenticator : Option (AuthFn σ)) (ps : ProcessState) (st : HostState σ) :
    (Except ExecutionError Unit) × HostState σ :=
  let pubKey := ps.stackWord 0
  let msg := ps.stackWord 1
  let signatureKey := hmerge pubKey msg
  match lookupA signatureKey st.advMap with
  | some signature =>
    (.ok (), { st with advStack := pushAll signature st.advStack })
  | none =>
    let accountDelta := st.accountDelta.intoDelta
    match authenticator with
    | none =>
      (.error (.failedSignatureGeneration "No authenticator assigned to transaction host"), st)
    | some auth =>
      match auth st.authState pubKey msg accountDelta with
      | (.error _, s1) =>
        (.error (.failedSignatureGeneration "Error generating signature"),
         { st with authState := s1 })
      | (.ok signature, s1) =>
        (.ok (),
         { st with authState := s1,
                   generatedSignatures := insertA signatureKey signature st.generatedSignatures,
                   advStack := pushAll signature st.advStack })

-- EVENT DISPATCH (on_event)
-- =================================================================================================

/-- The external primitives the event dispatcher hands to individual handlers:
`Asset::try_from` and the advice-backed Merkle walk of the procedure index map. -/
structure EventExternals where
  parseAsset : Word → Except AssetError Asset
  resolveProcIndex : Word → Option Nat

/-- Mirrors `Host::on_event` for `TransactionHost`: decode the numeric event id
(`TransactionEvent::try_from`, an external decode table passed as `decode`),
reject any event emitted outside the root context, then dispatch to the
matching handler, wrapping kernel errors into the event-error channel. -/
def onEvent {σ : Type} (decode : Nat → Option TransactionEvent) (ext : EventExternals)
    (ps : ProcessState) (eventId : Nat) (st : HostState σ) :
    Outcome ExecutionError (HostState σ) :=
  match decode eventId with
  | none => .err (.eventError (.unknownEventId eventId))
  | some event =>
    if ps.ctx ≠ rootContext then
      .err (.eventError (.notRootContext event))
    else
      let res : Outcome TransactionKernelError (HostState σ) :=
        match event with
        | .accountVaultBeforeAddAsset => .ok st
        | .accountVaultAfterAddAsset => onAccountVaultAfterAddAsset ext.parseAsset ps st
        | .accountVaultBeforeRemoveAsset => .ok st
        | .accountVaultAfterRemoveAsset => onAccountVaultAfterRemoveAsset ext.parseAsset ps st
        | .accountStorageBeforeSetItem => .ok st
        | .accountStorageAfterSetItem => onAccountStorageAfterSetItem ps st
        | .accountStorageBeforeSetMapItem => .ok st
        | .accountStorageAfterSetMapItem => onAccountStorageAfterSetMapItem ps st
        | .accountBeforeIncrementNonce => onAccountBeforeIncrementNonce ps st
        | .accountAfterIncrementNonce => .ok st
        | .accountPushProcedureIndex => onAccountPushProcedureIndex ext.resolveProcIndex ps st
        | .noteBeforeCreated => .ok st
        | .noteAfterCreated => onNoteAfterCreated ps st
        | .noteBeforeAddAsset => onNoteBeforeAddAsset ext.parseAsset ps st
        | .noteAfterAddAsset => .ok st
      match res with
      | .ok st1 => .ok st1
      | .err e => .err (.eventError (.kernelError e))
      | .panic m => .panic m

-- TRANSACTION AUTHENTICATOR (miden-tx/src/host/tx_authenticator.rs)
-- =================================================================================================

/-- A secret key of one of the supported schemes (`AuthSecretKey`), with the
falcon-512 key material itself an opaque external type `K`. -/
inductive AuthSecretKey (K : Type) where
  | rpoFalcon512 (key : K)

/-- The falcon-512 primitive as the authenticator consumes it — a black box
producing a signature (nonce plus signature polynomial) from a key, a message
and the randomness state, exposing the nonce as 8 field elements, the
polynomial coefficients as u32-ranged integers (`a.value() as u32`), and the
polynomial product in the Miden field as u64-ranged integers. -/
structure FalconOps (K S σ : Type) where
  signWithRng : K → Word → σ → S × σ
  nonceElements : S → List Felt
  sigPolyCoeffs : S → List Nat
  pubKeyPolyCoeffs : K → List Nat
  mulModuloP : List Nat → List Nat → List Nat

/-- Mirrors `get_falcon_signature`: sign, then push the nonce elements, the
expanded public-key coefficients, the signature coefficients, and the product
coefficients, and reverse the whole sequence (the VM pops the advice stack in
the opposite order). -/
def getFalconSignature {K S σ : Type} (ops : FalconOps K S σ) (key : K) (message : Word)
    (rng : σ) : (Except AuthenticationError (List Felt)) × σ :=
  let sigAndRng := ops.signWithRng key message rng
  let sig := sigAndRng.1
  let nonce := ops.nonceElements sig
  let s2 := ops.sigPolyCoeffs sig
  let h := ops.pubKeyPolyCoeffs key
  let pi := ops.mulModuloP h s2
  let result :=
    ((nonce ++ h.map feltFromU32) ++ s2.map feltFromU32) ++ pi.map feltNew
  (.ok result.reverse, sigAndRng.2)

/-- A `BasicAuthenticator`: a fixed map from public-key digest (a word) to
secret key, plus the shared randomness state held behind a `RefCell`. -/
structure BasicAuthenticator (K σ : Type) where
  keys : List (Word × AuthSecretKey K)
  rng : σ

/-- Mirrors `BasicAuthenticator::get_signature`: the account delta is
informational only; the key is looked up by public-key digest and an absent key
fails with `UnknownKey`; a falcon key signs through `get_falcon_signature`. -/
def BasicAuthenticator.getSignature {K S σ : Type} (ops : FalconOps K S σ)
    (auth : BasicAuthenticator K σ) (pubKey message : Word) (accountDelta : AccountDelta) :
    (Except AuthenticationError (List Felt)) × σ :=
  let _ := accountDelta
  match lookupA pubKey auth.keys with
  | some key =>
    match key with
    | .rpoFalcon512 falconKey => getFalconSignature ops falconKey message auth.rng
  | none =>
    (.error (.unknownKey "Public key is not contained in the authenticator's keys"), auth.rng)

/-- The `BasicAuthenticator` packaged as the host's authenticator capability. -/
def basicAuthFn {K S σ : Type} (ops : FalconOps K S σ) (keys : List (Word × AuthSecretKey K)) :
    AuthFn σ :=
  fun rng pubKey message accountDelta =>
    BasicAuthenticator.getSignature ops { keys := keys, rng := rng } pubKey message accountDelta

-- EXECUTION SEQUENCES USED BY THE CLAIMS
-- =================================================================================================

/-- A process state encoding one `AccountStorageAfterSetItem` event: the slot
index on top of the stack, the new value in elements 4..1 and the current value
in elements 8..5, exactly where `on_account_storage_after_set_item` reads them. -/
def setItemProcess (slotIndex : Felt) (newValue currentValue : Word) : ProcessState :=
  { stack := fun i =>
      match i with
      | 0 => slotIndex
      | 1 => newValue.w3
      | 2 => newValue.w2
      | 3 => newValue.w1
      | 4 => newValue.w0
      | 5 => currentValue.w3
      | 6 => currentValue.w2
      | 7 => currentValue.w1
      | 8 => currentValue.w0
      | _ => zeroFelt,
    stackWord := fun _ => zeroWord,
    ctx := rootContext, clk := 0 }

/-- Run a kernel-generated sequence of set-item events against one slot: the
kernel chains the events, so each event's current value is the previous
event's new value and the first event's current value is the slot's
pre-execution value. -/
def runSetItems {σ : Type} (slotIndex : Felt) (currentValue : Word) (writes : List Word)
    (st : HostState σ) : Outcome TransactionKernelError (HostState σ) :=
  match writes with
  | [] => .ok st
  | w :: rest =>
    match onAccountStorageAfterSetItem (setItemProcess slotIndex w currentValue) st with
    | .ok st1 => runSetItems slotIndex w rest st1
    | .err e => .err e
    | .panic m => .panic m

/-- The net effect of a chained event sequence on one slot entry, as a pure fold:
skip the write when it matches the chained current value, else record it. -/
def stepFold (current : Word) (entry : Option Word) : List Word → Option Word
  | [] => entry
  | w :: rest => if current = w then stepFold w entry rest else stepFold w (some w) rest

/-- Run a sequence of note-creation events through `on_note_after_created`. -/
def runCreatedEvents {σ : Type} (events : List ProcessState) (st : HostState σ) :
    Outcome TransactionKernelError (HostState σ) :=
  match events with
  | [] => .ok st
  | ps :: rest =>
    match onNoteAfterCreated ps st with
    | .ok st1 => runCreatedEvents rest st1
    | .err e => .err e
    | .panic m => .panic m

-- CONCRETE INPUTS USED BY COUNTEREXAMPLES AND WITNESSES
-- =================================================================================================

/-- A process state whose whole operand stack is zero. -/
def zeroStackProcess : ProcessState :=
  { stack := fun _ => zeroFelt, stackWord := fun _ => zeroWord, ctx := rootContext, clk := 0 }

/-- Hash-merge stand-in for the signature-cache key: first argument. -/
def c1Merge : Word → Word → Word := fun a _ => a

/-- A counting authenticator: each invocation returns a distinct one-element
signature and bumps its state, exposing how often it was invoked. -/
def c1Auth : AuthFn Nat := fun n _ _ _ => (.ok [feltNew n], n + 1)

/-- Host state after the first signature request of the C1 scenario. -/
def c1Host1 : HostState Nat :=
  (onSignatureRequested c1Merge (some c1Auth) zeroStackProcess (HostState.initial 0)).2

/-- Host state after the second, identical signature request of the C1 scenario. -/
def c1Host2 : HostState Nat :=
  (onSignatureRequested c1Merge (some c1Auth) zeroStackProcess c1Host1).2

/-- Host state whose advice map memoizes one signature, for the amended C1 witness. -/
def c1MapHost : HostState Nat :=
  { HostState.initial 0 with advMap := [(zeroWord, [feltNew 7])] }

/-- Expected state after a request served from the advice map in the C1 witness. -/
def c1MapHostAfter : HostState Nat :=
  { c1MapHost with advStack := pushAll [feltNew 7] [] }

/-- Pre-execution value of storage slot 0 in the C2 scenario. -/
def c2ValA : Word := ⟨zeroFelt, zeroFelt, zeroFelt, feltNew 1⟩

/-- Intermediate value written to storage slot 0 in the C2 scenario. -/
def c2ValB : Word := ⟨feltNew 1, zeroFelt, zeroFelt, zeroFelt⟩

/-- Outcome of the C2 scenario: slot 0 starts at `c2ValA`, is set to `c2ValB`,
then set back to `c2ValA`. -/
def c2Result : Outcome TransactionKernelError (HostState Unit) :=
  runSetItems zeroFelt c2ValA [c2ValB, c2ValA] (HostState.initial ())

/-- The slot-0 entry of the delta produced by the C2 scenario (`none` if the run
failed or left no entry). -/
def c2FinalEntry : Option Word :=
  match c2Result with
  | .ok st1 => btreeLookup 0 st1.accountDelta.intoDelta.storageSlots
  | _ => none

/-- Final host state of the C2 amended-claim witness run (one changing write). -/
def c2WitnessFinal : HostState Unit :=
  match runSetItems zeroFelt c2ValA [c2ValB] (HostState.initial ()) with
  | .ok st => st
  | _ => HostState.initial ()

/-- An asset parser accepting every word, for scenarios whose failing path never
reaches the parse. -/
def okParseAsset : Word → Except AssetError Asset := fun w => .ok (.nonFungible w)

/-- Event decode table for the C4 witness: id 0 is the note-created event. -/
def c4Decode : Nat → Option TransactionEvent :=
  fun id => if id = 0 then some .noteAfterCreated else none

/-- Externals for the C4 witness. -/
def c4Ext : EventExternals :=
  { parseAsset := okParseAsset, resolveProcIndex := fun _ => none }

/-- A process state running in a non-root execution context. -/
def nonRootProcess : ProcessState :=
  { stack := fun _ => zeroFelt, stackWord := fun _ => zeroWord, ctx := 1, clk := 0 }

/-- Creation event for note index 0 (stack element 9 is zero). -/
def c5Ps0 : ProcessState := zeroStackProcess

/-- Creation event for note index 1 (stack element 9 is one). -/
def c5Ps1 : ProcessState :=
  { stack := fun i => match i with | 9 => feltNew 1 | _ => zeroFelt,
    stackWord := fun _ => zeroWord, ctx := rootContext, clk := 0 }

/-- Final host state of the C5 witness run (two note-creation events). -/
def c5Final : HostState Unit :=
  match runCreatedEvents [c5Ps0, c5Ps1] (HostState.initial ()) with
  | .ok st => st
  | _ => HostState.initial ()

/-- Degenerate falcon primitive over unit types, for witnesses that never reach
the signing path. -/
def unitFalconOps : FalconOps Unit Unit Unit :=
  { signWithRng := fun _ _ s => ((), s), nonceElements := fun _ => [],
    sigPolyCoeffs := fun _ => [], pubKeyPolyCoeffs := fun _ => [],
    mulModuloP := fun _ _ => [] }

/-- A basic authenticator holding no keys at all. -/
def emptyBasicAuth : BasicAuthenticator Unit Unit := { keys := [], rng := () }

/-- Hash function stand-in for the C6 witness: every input hashes to a digest
whose first element is 31 (five one bits, on-chain storage bits, regular
account type bits) and whose last element is zero (64 trailing zeros). -/
def c6Hash : List Felt → Word := fun _ => ⟨feltNew 31, zeroFelt, zeroFelt, zeroFelt⟩

/-- The account id the C6 witness construction produces. -/
def c6Id : AccountId := ⟨feltNew 31⟩

-- THEOREMS
-- =================================================================================================

/-- Claim C3 (code bug evidence): with no output note created, a note
before-add-asset event carrying note index 0 makes the handler abort through
the Rust `assert` macro (a panic), and in particular it does not return the
typed `MissingNote` host error the specification prescribes. -/
theorem noteBeforeAddAsset_unknown_index_panics :
    onNoteBeforeAddAsset okParseAsset zeroStackProcess (HostState.initial ()) =
      .panic "assertion failed: note_idx < self.output_notes.len() as u64" ∧
    onNoteBeforeAddAsset okParseAsset zeroStackProcess (HostState.initial ()) ≠
      .err (.missingNote 0) := by
  decide

/-- Claim C4: every event id that decodes to a transaction event, delivered
while the process context is not the root context, fails with the
context-violation event error, regardless of the event type. -/
theorem onEvent_nonroot_context_violation {σ : Type}
    (decode : Nat → Option TransactionEvent) (ext : EventExternals)
    (ps : ProcessState) (eventId : Nat) (st : HostState σ) (event : TransactionEvent)
    (hdecode : decode eventId = some event) (hctx : ps.ctx ≠ rootContext) :
    onEvent decode ext ps eventId st = .err (.eventError (.notRootContext event)) := by
  unfold onEvent
  rw [hdecode]
  simp [hctx]

/-- Witness for C4: the note-created event id delivered from context 1 fails
with the context violation. -/
theorem onEvent_nonroot_context_violation_witness :
    c4Decode 0 = some TransactionEvent.noteAfterCreated ∧
    nonRootProcess.ctx ≠ rootContext ∧
    onEvent c4Decode c4Ext nonRootProcess 0 (HostState.initial ()) =
      .err (.eventError (.notRootContext TransactionEvent.noteAfterCreated)) :=
  ⟨rfl, by decide,
    onEvent_nonroot_context_violation c4Decode c4Ext nonRootProcess 0 (HostState.initial ())
      TransactionEvent.noteAfterCreated rfl (by decide)⟩

/-- Claim C8: a successful falcon-512 signature request returns the reversal of
the concatenation of the nonce elements, the expanded public-key coefficients,
the signature-polynomial coefficients, and the coefficients of the product of
the expanded key and signature polynomials. -/
theorem falconSignature_layout {K S σ : Type} (ops : FalconOps K S σ) (key : K)
    (message : Word) (rng : σ) :
    (getFalconSignature ops key message rng).1 =
      .ok ((ops.nonceElements (ops.signWithRng key message rng).1
            ++ (ops.pubKeyPolyCoeffs key).map feltFromU32
            ++ (ops.sigPolyCoeffs (ops.signWithRng key message rng).1).map feltFromU32
            ++ (ops.mulModuloP (ops.pubKeyPolyCoeffs key)
                 (ops.sigPolyCoeffs (ops.signWithRng key message rng).1)).map feltNew).reverse) := by
  unfold getFalconSignature
  simp [List.append_assoc]

/-- Claim C9: when the requested signature is not memoized in the advice map and
the host was built without an authenticator, the signature request fails with
the failed-signature-generation execution error and the host state — in
particular `generated_signatures` — is unchanged. -/
theorem sigRequest_no_authenticator {σ : Type} (hmerge : Word → Word → Word)
    (ps : ProcessState) (st : HostState σ)
    (hmiss : lookupA (hmerge (ps.stackWord 0) (ps.stackWord 1)) st.advMap = none) :
    onSignatureRequested hmerge (none : Option (AuthFn σ)) ps st =
      (.error (.failedSignatureGeneration "No authenticator assigned to transaction host"), st) := by
  simp only [onSignatureRequested, hmiss]

/-- Witness for C9 at the empty advice map. -/
theorem sigRequest_no_authenticator_witness :
    lookupA (c1Merge (zeroStackProcess.stackWord 0) (zeroStackProcess.stackWord 1))
        (HostState.initial 0).advMap = none ∧
    onSignatureRequested c1Merge (none : Option (AuthFn Nat)) zeroStackProcess
        (HostState.initial 0) =
      (.error (.failedSignatureGeneration "No authenticator assigned to transaction host"),
       HostState.initial 0) :=
  ⟨rfl, sigRequest_no_authenticator c1Merge zeroStackProcess (HostState.initial 0) rfl⟩

/-- Claim C1 counterexample: two identical signature requests in one execution,
with the signature absent from the advice provider's memoized map, invoke the
authenticator twice (its counter ends at 2) and push two different signatures
(the second request is not served from the `generated_signatures` cache, which
is overwritten instead). -/
theorem sigRequest_not_idempotent_cex :
    (onSignatureRequested c1Merge (some c1Auth) zeroStackProcess (HostState.initial 0)).1 =
      .ok () ∧
    (onSignatureRequested c1Merge (some c1Auth) zeroStackProcess c1Host1).1 = .ok () ∧
    c1Host1.advStack = [feltNew 0] ∧
    c1Host2.advStack = [feltNew 1, feltNew 0] ∧
    feltNew 1 ≠ feltNew 0 ∧
    c1Host2.authState = 2 ∧
    lookupA (c1Merge (zeroStackProcess.stackWord 0) (zeroStackProcess.stackWord 1))
        c1Host2.generatedSignatures = some [feltNew 1] := by
  decide

/-- Claim C1 (amended): a signature request whose `hash(pub_key, message)` key is
memoized in the advice provider's map is served from that map — the same
element list is pushed, the authenticator is not invoked and
`generated_signatures` is untouched — and a second identical request is served
from the map again with the same elements.  (Requests whose key is absent from
the advice map re-invoke the authenticator each time; the host never reads its
own `generated_signatures` cache and never inserts into the advice map.) -/
theorem sigRequest_served_from_advice_map {σ : Type} (hmerge : Word → Word → Word)
    (authenticator : Option (AuthFn σ)) (ps : ProcessState) (st : HostState σ)
    (signature : List Felt)
    (hhit : lookupA (hmerge (ps.stackWord 0) (ps.stackWord 1)) st.advMap = some signature) :
    onSignatureRequested hmerge authenticator ps st =
      (.ok (), { st with advStack := pushAll signature st.advStack }) ∧
    onSignatureRequested hmerge authenticator ps
        { st with advStack := pushAll signature st.advStack } =
      (.ok (), { st with advStack := pushAll signature (pushAll signature st.advStack) }) := by
  constructor
  · simp only [onSignatureRequested, hhit]
  · simp only [onSignatureRequested, hhit]

/-- Witness for the amended C1 at a one-entry advice map. -/
theorem sigRequest_served_from_advice_map_witness :
    lookupA (c1Merge (zeroStackProcess.stackWord 0) (zeroStackProcess.stackWord 1))
        c1MapHost.advMap = some [feltNew 7] ∧
    onSignatureRequested c1Merge (some c1Auth) zeroStackProcess c1MapHost =
      (.ok (), c1MapHostAfter) :=
  ⟨by decide,
    (sigRequest_served_from_advice_map c1Merge (some c1Auth) zeroStackProcess c1MapHost
      [feltNew 7] (by decide)).1⟩

/-- Claim C7: a signature request for a public key absent from the basic
authenticator's key map fails with the unknown-key authentication error (the
randomness state untouched, no empty or default signature), and routed through
the host this failure surfaces as a failed-signature-generation execution
error, which aborts the enclosing VM execution. -/
theorem basicAuth_unknown_key {K S σ : Type} (ops : FalconOps K S σ)
    (auth : BasicAuthenticator K σ) (message : Word) (delta : AccountDelta)
    (hmerge : Word → Word → Word) (ps : ProcessState) (st : HostState σ)
    (hkey : lookupA (ps.stackWord 0) auth.keys = none)
    (hmiss : lookupA (hmerge (ps.stackWord 0) (ps.stackWord 1)) st.advMap = none) :
    BasicAuthenticator.getSignature ops auth (ps.stackWord 0) message delta =
      (.error (.unknownKey "Public key is not contained in the authenticator's keys"),
       auth.rng) ∧
    (onSignatureRequested hmerge (some (basicAuthFn ops auth.keys)) ps st).1 =
      .error (.failedSignatureGeneration "Error generating signature") := by
  constructor
  · simp only [BasicAuthenticator.getSignature, hkey]
  · simp only [onSignatureRequested, hmiss, basicAuthFn, BasicAuthenticator.getSignature, hkey]

/-- Witness for C7 at a keyless authenticator and an empty advice map. -/
theorem basicAuth_unknown_key_witness :
    lookupA (zeroStackProcess.stackWord 0) emptyBasicAuth.keys = none ∧
    BasicAuthenticator.getSignature unitFalconOps emptyBasicAuth (zeroStackProcess.stackWord 0)
        zeroWord AccountDeltaTracker.empty.intoDelta =
      (.error (.unknownKey "Public key is not contained in the authenticator's keys"), ()) ∧
    (onSignatureRequested c1Merge (some (basicAuthFn unitFalconOps emptyBasicAuth.keys))
        zeroStackProcess (HostState.initial ())).1 =
      .error (.failedSignatureGeneration "Error generating signature") :=
  ⟨rfl,
    (basicAuth_unknown_key unitFalconOps emptyBasicAuth zeroWord
      AccountDeltaTracker.empty.intoDelta c1Merge zeroStackProcess (HostState.initial ())
      rfl rfl).1,
    (basicAuth_unknown_key unitFalconOps emptyBasicAuth zeroWord
      AccountDeltaTracker.empty.intoDelta c1Merge zeroStackProcess (HostState.initial ())
      rfl rfl).2⟩

/-- Looking up a key right after inserting it returns the inserted value. -/
theorem btreeLookup_insert_self {α : Type} (k : Nat) (v : α) :
    ∀ l : List (Nat × α), btreeLookup k (btreeInsert k v l) = some v := by
  intro l
  induction l with
  | nil => simp [btreeInsert, btreeLookup]
  | cons p rest ih =>
    obtain ⟨k1, v1⟩ := p
    by_cases h1 : k < k1
    · simp [btreeInsert, btreeLookup, h1]
    · by_cases h2 : k = k1
      · simp [btreeInsert, btreeLookup, h1, h2]
      · simp [btreeInsert, btreeLookup, h1, h2, ih]

/-- Evaluation of the set-item handler on an event-shaped process state with a
valid slot index: record the new value when it differs from the current one,
otherwise leave the state alone. -/
theorem setItem_handler_eval {σ : Type} (slotIndex : Felt) (newV curV : Word)
    (st : HostState σ) (hslot : slotIndex.val < NUM_STORAGE_SLOTS) :
    onAccountStorageAfterSetItem (setItemProcess slotIndex newV curV) st =
      if curV ≠ newV then
        .ok { st with accountDelta := st.accountDelta.slotUpdate slotIndex.val newV }
      else .ok st := by
  show (if slotIndex.val ≥ NUM_STORAGE_SLOTS then _ else _) = _
  rw [if_neg (by omega)]
  rfl

/-- Once an entry matching the chained current value is recorded, the fold ends
at the last written value. -/
theorem stepFold_saturated : ∀ (l : List Word) (c : Word),
    stepFold c (some c) l = some (l.getLastD c) := by
  intro l
  induction l with
  | nil => intro c; rfl
  | cons w rest ih =>
    intro c
    rw [List.getLastD_cons]
    show (if c = w then stepFold w (some c) rest else stepFold w (some w) rest) =
      some (rest.getLastD w)
    by_cases h : c = w
    · rw [if_pos h, h]
      exact ih w
    · rw [if_neg h]
      exact ih w

/-- Starting from no recorded entry, the fold leaves no entry exactly when every
write equals the pre-execution value, and otherwise records the last write. -/
theorem stepFold_fresh : ∀ (l : List Word) (v0 : Word),
    stepFold v0 none l = if ∀ w ∈ l, w = v0 then none else some (l.getLastD v0) := by
  intro l
  induction l with
  | nil => intro v0; simp [stepFold]
  | cons w rest ih =>
    intro v0
    show (if v0 = w then stepFold w none rest else stepFold w (some w) rest) = _
    by_cases h : v0 = w
    · subst h
      rw [if_pos rfl, ih v0]
      by_cases hall : ∀ x ∈ rest, x = v0
      · have hall2 : ∀ x ∈ v0 :: rest, x = v0 := by
          intro x hx
          rcases List.mem_cons.mp hx with h1 | h2
          · exact h1
          · exact hall x h2
        rw [if_pos hall, if_pos hall2]
      · have hne : ¬ ∀ x ∈ v0 :: rest, x = v0 := fun hc =>
          hall (fun x hx => hc x (List.mem_cons_of_mem _ hx))
        rw [if_neg hall, if_neg hne, List.getLastD_cons]
    · have hne : ¬ ∀ x ∈ w :: rest, x = v0 := fun hc =>
        h ((hc w (List.mem_cons_self w rest)).symm)
      rw [if_neg h, stepFold_saturated rest w, if_neg hne, List.getLastD_cons]

/-- A chained set-item event sequence on a valid slot always succeeds, and the
final entry for the slot is the `stepFold` of the writes over the initial entry. -/
theorem runSetItems_lookup {σ : Type} (slotIndex : Felt)
    (hslot : slotIndex.val < NUM_STORAGE_SLOTS) :
    ∀ (writes : List Word) (current : Word) (st : HostState σ),
      ∃ st1, runSetItems slotIndex current writes st = .ok st1 ∧
        btreeLookup slotIndex.val st1.accountDelta.storageSlots =
          stepFold current (btreeLookup slotIndex.val st.accountDelta.storageSlots) writes := by
  intro writes
  induction writes with
  | nil => intro current st; exact ⟨st, rfl, rfl⟩
  | cons w rest ih =>
    intro current st
    by_cases h : current = w
    · obtain ⟨st1, h1, h2⟩ := ih w st
      refine ⟨st1, ?_, ?_⟩
      · show (match onAccountStorageAfterSetItem (setItemProcess slotIndex w current) st with
          | .ok st1 => runSetItems slotIndex w rest st1
          | .err e => .err e
          | .panic m => .panic m) = .ok st1
        rw [setItem_handler_eval slotIndex w current st hslot, if_neg (by simp [h])]
        exact h1
      · rw [h2]
        show _ = stepFold current _ (w :: rest)
        rw [stepFold, if_pos h]
    · obtain ⟨st1, h1, h2⟩ := ih w { st with accountDelta := st.accountDelta.slotUpdate slotIndex.val w }
      refine ⟨st1, ?_, ?_⟩
      · show (match onAccountStorageAfterSetItem (setItemProcess slotIndex w current) st with
          | .ok st1 => runSetItems slotIndex w rest st1
          | .err e => .err e
          | .panic m => .panic m) = .ok st1
        rw [setItem_handler_eval slotIndex w current st hslot, if_pos (by simp [h])]
        exact h1
      · rw [h2]
        show _ = stepFold current _ (w :: rest)
        rw [stepFold, if_neg h]
        congr 1
        show btreeLookup slotIndex.val
            (btreeInsert slotIndex.val w st.accountDelta.storageSlots) = some w
        exact btreeLookup_insert_self slotIndex.val w st.accountDelta.storageSlots

/-- Claim C2 counterexample: slot 0 starts at `c2ValA`, a kernel-chained event
sequence sets it to `c2ValB` and then back to `c2ValA`; the run succeeds, the
last value written equals the pre-execution value, and yet the final delta
still contains an entry for the slot (the claim demands no entry). -/
theorem storage_slot_revert_keeps_entry_cex :
    c2FinalEntry = some c2ValA ∧
    [c2ValB, c2ValA].getLastD c2ValA = c2ValA ∧
    c2ValA ≠ c2ValB := by
  decide

/-- Claim C2 (amended): for a kernel-chained sequence of set-item events on one
valid slot starting with no recorded entry, the final delta holds at most one
entry for the slot; there is no entry exactly when every written value equals
the pre-execution value, and otherwise the single entry equals the last value
written — in particular an entry equal to the pre-execution value remains when
the slot is changed and later restored. -/
theorem storage_slot_delta_last_write {σ : Type} (slotIndex : Felt) (v0 : Word)
    (writes : List Word) (st st1 : HostState σ)
    (hslot : slotIndex.val < NUM_STORAGE_SLOTS)
    (hinit : btreeLookup slotIndex.val st.accountDelta.storageSlots = none)
    (hrun : runSetItems slotIndex v0 writes st = .ok st1) :
    btreeLookup slotIndex.val st1.accountDelta.intoDelta.storageSlots =
      if ∀ w ∈ writes, w = v0 then none else some (writes.getLastD v0) := by
  obtain ⟨st2, h2, h3⟩ := runSetItems_lookup slotIndex hslot writes v0 st
  rw [hrun] at h2
  cases h2
  show btreeLookup slotIndex.val st1.accountDelta.storageSlots = _
  rw [h3, hinit, stepFold_fresh]

/-- Witness for the amended C2: one write that changes the slot leaves exactly
that value in the delta. -/
theorem storage_slot_delta_last_write_witness :
    runSetItems zeroFelt c2ValA [c2ValB] (HostState.initial ()) = .ok c2WitnessFinal ∧
    btreeLookup zeroFelt.val c2WitnessFinal.accountDelta.intoDelta.storageSlots =
      some ([c2ValB].getLastD c2ValA) := by
  constructor
  · rfl
  · have h := storage_slot_delta_last_write zeroFelt c2ValA [c2ValB] (HostState.initial ())
      c2WitnessFinal (by decide) rfl rfl
    rw [h, if_neg (by decide)]

/-- Inserting a key larger than every key present appends at the end of the
sorted association list. -/
theorem btreeInsert_append {α : Type} (k : Nat) (v : α) :
    ∀ l : List (Nat × α), (∀ p ∈ l, p.1 < k) → btreeInsert k v l = l ++ [(k, v)] := by
  intro l
  induction l with
  | nil => intro _; rfl
  | cons p rest ih =>
    intro h
    obtain ⟨k1, v1⟩ := p
    have hk1 : k1 < k := h (k1, v1) (List.mem_cons_self _ _)
    show (if k < k1 then _ else if k = k1 then _ else (k1, v1) :: btreeInsert k v rest) = _
    rw [if_neg (by omega), if_neg (by omega), ih (fun q hq => h q (List.mem_cons_of_mem _ hq))]
    rfl

/-- Unfolding one successful step of the note-creation run. -/
theorem runCreatedEvents_cons_ok {σ : Type} (ps : ProcessState) (rest : List ProcessState)
    (st st2 : HostState σ) (h : onNoteAfterCreated ps st = .ok st2) :
    runCreatedEvents (ps :: rest) st = runCreatedEvents rest st2 := by
  show (match onNoteAfterCreated ps st with
    | .ok st1 => runCreatedEvents rest st1
    | .err e => .err e
    | .panic m => .panic m) = _
  rw [h]

/-- Unfolding one panicking step of the note-creation run. -/
theorem runCreatedEvents_cons_panic {σ : Type} (ps : ProcessState) (rest : List ProcessState)
    (st : HostState σ) (m : String) (h : onNoteAfterCreated ps st = .panic m) :
    runCreatedEvents (ps :: rest) st = .panic m := by
  show (match onNoteAfterCreated ps st with
    | .ok st1 => runCreatedEvents rest st1
    | .err e => .err e
    | .panic m => .panic m) = _
  rw [h]

/-- Invariant of the note-creation run: starting from builders enumerated
0..n-1, a successful run appends the new builders in creation order, and each
event's stack-supplied index equals the number of notes created before it. -/
theorem runCreated_invariant {σ : Type} :
    ∀ (events : List ProcessState) (builders : List OutputNoteBuilder) (st st1 : HostState σ),
      st.outputNotes = builders.enum →
      runCreatedEvents events st = .ok st1 →
      st1.outputNotes = (builders ++ events.map OutputNoteBuilder.fromStack).enum ∧
      ∀ i (h : i < events.length),
        ((events.get ⟨i, h⟩).stack 9).val = builders.length + i := by
  intro events
  induction events with
  | nil =>
    intro builders st st1 hob hrun
    cases hrun
    constructor
    · simpa using hob
    · intro i h
      simp at h
  | cons ps rest ih =>
    intro builders st st1 hob hrun
    have hlen : st.outputNotes.length = builders.length := by
      rw [hob]; exact List.enum_length
    by_cases hidx : ((ps.stack 9)).val = st.outputNotes.length
    · have hstep : onNoteAfterCreated ps st =
          .ok { st with outputNotes := btreeInsert ((ps.stack 9)).val
                          (OutputNoteBuilder.fromStack ps) st.outputNotes } := by
        simp only [onNoteAfterCreated]
        rw [if_pos hidx]
        rfl
      have hrun2 : runCreatedEvents rest
          { st with outputNotes := btreeInsert ((ps.stack 9)).val
                      (OutputNoteBuilder.fromStack ps) st.outputNotes } =
          .ok st1 := by
        rw [← runCreatedEvents_cons_ok ps rest st _ hstep]
        exact hrun
      have hkeys : ∀ p ∈ builders.enum, p.1 < builders.length := by
        intro p hp
        have hmem : p.1 ∈ builders.enum.map Prod.fst := List.mem_map_of_mem Prod.fst hp
        rw [List.enum_map_fst] at hmem
        exact List.mem_range.mp hmem
      have hinsert : btreeInsert ((ps.stack 9)).val (OutputNoteBuilder.fromStack ps)
          st.outputNotes = (builders ++ [OutputNoteBuilder.fromStack ps]).enum := by
        rw [hob, hidx.trans hlen, btreeInsert_append _ _ _ hkeys, List.enum_append]
        rfl
      obtain ⟨ha, hb⟩ := ih (builders ++ [OutputNoteBuilder.fromStack ps]) _ st1
        (by show btreeInsert _ _ st.outputNotes = _; exact hinsert) hrun2
      constructor
      · rw [ha]
        simp [List.append_assoc]
      · intro i h
        cases i with
        | zero =>
          show ((ps.stack 9)).val = builders.length + 0
          rw [hidx.trans hlen]
          omega
        | succ i =>
          have hi : i < rest.length := by simpa using h
          have hv := hb i hi
          show ((rest.get ⟨i, hi⟩).stack 9).val = builders.length + (i + 1)
          rw [hv]
          simp only [List.length_append, List.length_singleton]
          omega
    · exfalso
      have hpanic : onNoteAfterCreated ps st = .panic "note index mismatch" := by
        simp only [onNoteAfterCreated]
        rw [if_neg hidx]
      rw [runCreatedEvents_cons_panic ps rest st _ hpanic] at hrun
      cases hrun

/-- Claim C5: in a successful execution creating notes from an initially empty
host, every note's stack-supplied index equals the count of notes already
created (indices 0..n-1, no gaps), and `into_parts` returns the finalized
notes as a list in strictly increasing index order equal to creation order. -/
theorem output_notes_creation_order {σ : Type} (events : List ProcessState)
    (st st1 : HostState σ) (hempty : st.outputNotes = [])
    (hrun : runCreatedEvents events st = .ok st1) :
    st1.outputNotes.map Prod.fst = List.range events.length ∧
    (TransactionHost.intoParts st1).outputNotes =
      events.map (fun ps => (OutputNoteBuilder.fromStack ps).build) ∧
    ∀ i (h : i < events.length), ((events.get ⟨i, h⟩).stack 9).val = i := by
  obtain ⟨h1, h2⟩ := runCreated_invariant events [] st st1 (by simpa using hempty) hrun
  refine ⟨?_, ?_, ?_⟩
  · rw [h1, List.enum_map_fst]
    simp
  · show st1.outputNotes.map (fun p => p.2.build) = _
    rw [h1]
    have hmm : (fun p : Nat × OutputNoteBuilder => p.2.build) =
        OutputNoteBuilder.build ∘ Prod.snd := rfl
    rw [hmm, ← List.map_map, List.enum_map_snd]
    simp [List.map_map]
  · intro i h
    have := h2 i h
    simpa using this

/-- Witness for C5: two creation events with indices 0 and 1. -/
theorem output_notes_creation_order_witness :
    runCreatedEvents [c5Ps0, c5Ps1] (HostState.initial ()) = .ok c5Final ∧
    c5Final.outputNotes.map Prod.fst = List.range 2 ∧
    (TransactionHost.intoParts c5Final).outputNotes =
      [c5Ps0, c5Ps1].map (fun ps => (OutputNoteBuilder.fromStack ps).build) ∧
    (([c5Ps0, c5Ps1].get ⟨1, by decide⟩).stack 9).val = 1 := by
  have hrun : runCreatedEvents [c5Ps0, c5Ps1] (HostState.initial ()) = .ok c5Final := by rfl
  have h := output_notes_creation_order [c5Ps0, c5Ps1] (HostState.initial ()) c5Final rfl hrun
  exact ⟨hrun, h.1, h.2.1, h.2.2 1 (by decide)⟩

/-- On success, `TryFrom<Felt>` stores exactly the input element. -/
theorem tryFromFelt_ok_val {v : Felt} {id : AccountId}
    (h : AccountId.tryFromFelt v = .ok id) : id.val = v := by
  unfold AccountId.tryFromFelt at h
  by_cases h1 : popcount v.val < MIN_ACCOUNT_ONES
  · rw [if_pos h1] at h
    cases h
  · rw [if_neg h1] at h
    by_cases h2 : (v.val &&& ACCOUNT_STORAGE_MASK) >>> ACCOUNT_STORAGE_MASK_SHIFT = ON_CHAIN ∨
        (v.val &&& ACCOUNT_STORAGE_MASK) >>> ACCOUNT_STORAGE_MASK_SHIFT = OFF_CHAIN
    · rw [if_pos h2] at h
      cases h
      rfl
    · rw [if_neg h2] at h
      cases h

/-- On success, the input had enough one bits. -/
theorem tryFromFelt_ok_ones {v : Felt} {id : AccountId}
    (h : AccountId.tryFromFelt v = .ok id) : MIN_ACCOUNT_ONES ≤ popcount v.val := by
  unfold AccountId.tryFromFelt at h
  by_cases h1 : popcount v.val < MIN_ACCOUNT_ONES
  · rw [if_pos h1] at h
    cases h
  · omega

/-- On success, the storage bits are one of the two valid patterns. -/
theorem tryFromFelt_ok_bits {v : Felt} {id : AccountId}
    (h : AccountId.tryFromFelt v = .ok id) :
    (v.val &&& ACCOUNT_STORAGE_MASK) >>> ACCOUNT_STORAGE_MASK_SHIFT = ON_CHAIN ∨
    (v.val &&& ACCOUNT_STORAGE_MASK) >>> ACCOUNT_STORAGE_MASK_SHIFT = OFF_CHAIN := by
  unfold AccountId.tryFromFelt at h
  by_cases h1 : popcount v.val < MIN_ACCOUNT_ONES
  · rw [if_pos h1] at h
    cases h
  · rw [if_neg h1] at h
    by_cases h2 : (v.val &&& ACCOUNT_STORAGE_MASK) >>> ACCOUNT_STORAGE_MASK_SHIFT = ON_CHAIN ∨
        (v.val &&& ACCOUNT_STORAGE_MASK) >>> ACCOUNT_STORAGE_MASK_SHIFT = OFF_CHAIN
    · exact h2
    · rw [if_neg h2] at h
      cases h

/-- Sufficient conditions make `TryFrom<Felt>` succeed with the wrapped input. -/
theorem tryFromFelt_ok_of {v : Felt}
    (h1 : MIN_ACCOUNT_ONES ≤ popcount v.val)
    (h2 : (v.val &&& ACCOUNT_STORAGE_MASK) >>> ACCOUNT_STORAGE_MASK_SHIFT = ON_CHAIN ∨
      (v.val &&& ACCOUNT_STORAGE_MASK) >>> ACCOUNT_STORAGE_MASK_SHIFT = OFF_CHAIN) :
    AccountId.tryFromFelt v = .ok ⟨v⟩ := by
  unfold AccountId.tryFromFelt
  rw [if_neg (by omega), if_pos h2]

/-- Claim C10: conversion of a field element to an account id succeeds exactly
when the value has at least `MIN_ACCOUNT_ONES` one bits and its two storage
bits equal the on-chain or off-chain pattern (the two account-type bits are
checked by neither condition), and on success the stored value equals the
input exactly. -/
theorem tryFromFelt_spec (v : Felt) :
    ((∃ id, AccountId.tryFromFelt v = .ok id) ↔
      (MIN_ACCOUNT_ONES ≤ popcount v.val ∧
        ((v.val &&& ACCOUNT_STORAGE_MASK) >>> ACCOUNT_STORAGE_MASK_SHIFT = ON_CHAIN ∨
         (v.val &&& ACCOUNT_STORAGE_MASK) >>> ACCOUNT_STORAGE_MASK_SHIFT = OFF_CHAIN))) ∧
    ∀ id, AccountId.tryFromFelt v = .ok id → id.val = v := by
  refine ⟨⟨?_, ?_⟩, ?_⟩
  · rintro ⟨id, hid⟩
    exact ⟨tryFromFelt_ok_ones hid, tryFromFelt_ok_bits hid⟩
  · rintro ⟨h1, h2⟩
    exact ⟨⟨v⟩, tryFromFelt_ok_of h1 h2⟩
  · intro id hid
    exact tryFromFelt_ok_val hid

/-- Witness for C10 at the value 31 (five one bits, on-chain storage bits). -/
theorem tryFromFelt_spec_witness :
    AccountId.tryFromFelt (feltNew 31) = .ok ⟨feltNew 31⟩ ∧
    (MIN_ACCOUNT_ONES ≤ popcount (feltNew 31).val ∧
      (((feltNew 31).val &&& ACCOUNT_STORAGE_MASK) >>> ACCOUNT_STORAGE_MASK_SHIFT = ON_CHAIN ∨
       ((feltNew 31).val &&& ACCOUNT_STORAGE_MASK) >>> ACCOUNT_STORAGE_MASK_SHIFT = OFF_CHAIN)) ∧
    (⟨feltNew 31⟩ : AccountId).val = feltNew 31 :=
  ⟨by decide,
   (tryFromFelt_spec (feltNew 31)).1.mp ⟨⟨feltNew 31⟩, by decide⟩,
   (tryFromFelt_spec (feltNew 31)).2 ⟨feltNew 31⟩ (by decide)⟩

/-- The hex rendering of `k` digits always has length `k`. -/
theorem natToHexAux_length : ∀ (k n : Nat), (natToHexAux k n).length = k := by
  intro k
  induction k with
  | zero => intro n; rfl
  | succ k ih =>
    intro n
    show (natToHexAux k (n / 16) ++ [hexChar (n % 16)]).length = k + 1
    rw [List.length_append, ih]
    rfl

/-- Decoding a rendered hex digit recovers its value. -/
theorem hexDigitVal_hexChar : ∀ d, d < 16 → hexDigitVal (hexChar d) = some d := by
  decide

/-- Parsing distributes over an append whose prefix already parses. -/
theorem parseHexPairs_append : ∀ (xs ys : List Char) (bs : List Nat),
    parseHexPairs xs = some bs →
    parseHexPairs (xs ++ ys) = (parseHexPairs ys).map (fun cs => bs ++ cs) := by
  intro xs
  induction xs using parseHexPairs.induct with
  | case1 =>
    intro ys bs h
    cases h
    cases hys : parseHexPairs ys <;> simp [hys]
  | case2 c1 c2 rest hi lo tail hrest hc2 hc1 ih =>
    intro ys bs h
    rw [parseHexPairs, hc1, hc2, hrest] at h
    simp at h
    rw [show ((c1 :: c2 :: rest) ++ ys) = c1 :: c2 :: (rest ++ ys) from rfl,
        parseHexPairs, hc1, hc2, ih ys tail hrest]
    cases hys : parseHexPairs ys <;> simp [hys, ← h]
  | case3 c1 c2 rest hfalse ih =>
    intro ys bs h
    exfalso
    rw [parseHexPairs] at h
    cases hc1 : hexDigitVal c1 with
    | none => rw [hc1] at h; simp at h
    | some hi =>
      cases hc2 : hexDigitVal c2 with
      | none => rw [hc1, hc2] at h; simp at h
      | some lo =>
        cases hrest : parseHexPairs rest with
        | none => rw [hc1, hc2, hrest] at h; simp at h
        | some tail => exact hfalse hi lo tail hc1 hc2 hrest
  | case4 c =>
    intro ys bs h
    rw [parseHexPairs] at h
    cases h

/-- Parsing the `2k`-digit hex rendering of `n` yields its `k` low bytes in
big-endian order. -/
theorem parseHexPairs_natToHexAux : ∀ (k n : Nat),
    parseHexPairs (natToHexAux (2 * k) n) = some ((bytesLE k n).reverse) := by
  intro k
  induction k with
  | zero => intro n; rfl
  | succ k ih =>
    intro n
    have hexp : natToHexAux (2 * (k + 1)) n =
        natToHexAux (2 * k) (n / 256) ++ [hexChar (n / 16 % 16), hexChar (n % 16)] := by
      have h2k : 2 * (k + 1) = (2 * k + 1) + 1 := by omega
      rw [h2k]
      show natToHexAux (2 * k + 1) (n / 16) ++ [hexChar (n % 16)] = _
      rw [show natToHexAux (2 * k + 1) (n / 16) =
        natToHexAux (2 * k) (n / 16 / 16) ++ [hexChar (n / 16 % 16)] from rfl]
      rw [Nat.div_div_eq_div_mul]
      simp [List.append_assoc]
    rw [hexp, parseHexPairs_append _ _ _ (ih (n / 256))]
    have h1 : hexDigitVal (hexChar (n / 16 % 16)) = some (n / 16 % 16) :=
      hexDigitVal_hexChar _ (Nat.mod_lt _ (by decide))
    have h2 : hexDigitVal (hexChar (n % 16)) = some (n % 16) :=
      hexDigitVal_hexChar _ (Nat.mod_lt _ (by decide))
    rw [show parseHexPairs [hexChar (n / 16 % 16), hexChar (n % 16)] =
        (match hexDigitVal (hexChar (n / 16 % 16)), hexDigitVal (hexChar (n % 16)),
           parseHexPairs [] with
         | some hi, some lo, some bs => some ((16 * hi + lo) :: bs)
         | _, _, _ => none) from rfl]
    rw [h1, h2]
    have harith : 16 * (n / 16 % 16) + n % 16 = n % 256 := by omega
    show some ((bytesLE k (n / 256)).reverse ++ [16 * (n / 16 % 16) + n % 16]) = _
    rw [harith]
    show _ = some ((n % 256 :: bytesLE k (n / 256)).reverse)
    rw [List.reverse_cons]

/-- Little-endian decoding inverts the byte rendering modulo `256^k`. -/
theorem bytesToNatLE_bytesLE : ∀ (k n : Nat), bytesToNatLE (bytesLE k n) = n % 256 ^ k := by
  intro k
  induction k with
  | zero => intro n; simp [bytesLE, bytesToNatLE, Nat.mod_one]
  | succ k ih =>
    intro n
    show n % 256 + 256 * bytesToNatLE (bytesLE k (n / 256)) = n % 256 ^ (k + 1)
    rw [ih, pow_succ, mul_comm (256 ^ k) 256, Nat.mod_mul]

/-- Rendering an account id to hex and parsing it back is the same as
re-validating its field element. -/
theorem fromHex_toHex (id : AccountId) :
    AccountId.fromHex (AccountId.toHex id) = AccountId.tryFromFelt id.val := by
  have hbytes : hexToBytes (AccountId.toHex id) = some ((bytesLE 8 id.val.val).reverse) := by
    unfold hexToBytes
    rw [show (AccountId.toHex id).data = '0' :: 'x' :: natToHexAux 16 id.val.val from rfl]
    show (if '0' = '0' ∧ 'x' = 'x' ∧ (natToHexAux 16 id.val.val).length = 16 then
        parseHexPairs (natToHexAux 16 id.val.val) else none) = _
    rw [if_pos ⟨rfl, rfl, natToHexAux_length 16 _⟩]
    exact parseHexPairs_natToHexAux 8 id.val.val
  unfold AccountId.fromHex
  rw [hbytes]
  show (if h : bytesToNatLE ((bytesLE 8 id.val.val).reverse.reverse) < feltP then
      AccountId.tryFromFelt ⟨bytesToNatLE ((bytesLE 8 id.val.val).reverse.reverse), h⟩
    else .error (.accountIdInvalidFieldElement "value does not fit into a field element")) = _
  simp only [List.reverse_reverse, bytesToNatLE_bytesLE]
  have hv : id.val.val % 256 ^ 8 = id.val.val :=
    Nat.mod_eq_of_lt (lt_trans id.val.isLt (by norm_num [feltP]))
  simp only [hv]
  rw [dif_pos id.val.isLt, Fin.eta]

/-- Claim C6: an account id successfully produced by `AccountId::new` has at
least the minimum number of one bits, its seed digest meets the trailing-zero
proof-of-work bound selected for its account type, and rendering the id to hex
and parsing it back returns exactly the original identifier. -/
theorem accountId_new_valid_roundtrip (hashElements : List Felt → Word)
    (seed codeRoot storageRoot : Word) (id : AccountId)
    (hnew : AccountId.new hashElements seed codeRoot storageRoot = .ok id) :
    MIN_ACCOUNT_ONES ≤ popcount id.val.val ∧
    (if isRegularAccount (computeDigest hashElements seed codeRoot storageRoot).w0.val
      then REGULAR_ACCOUNT_SEED_DIGEST_MIN_TRAILING_ZEROS
      else FAUCET_SEED_DIGEST_MIN_TRAILING_ZEROS)
      ≤ digestPow (computeDigest hashElements seed codeRoot storageRoot) ∧
    AccountId.fromHex (AccountId.toHex id) = .ok id := by
  have hnewm : (match AccountId.validateSeedDigest
      (computeDigest hashElements seed codeRoot storageRoot) with
    | Except.error e => (Except.error e : Except AccountError AccountId)
    | Except.ok _ => AccountId.tryFromFelt
        (computeDigest hashElements seed codeRoot storageRoot).w0) = .ok id := hnew
  cases hval : AccountId.validateSeedDigest (computeDigest hashElements seed codeRoot storageRoot) with
  | error e =>
    rw [hval] at hnewm
    cases hnewm
  | ok u =>
    rw [hval] at hnewm
    have hnew2 : AccountId.tryFromFelt
        (computeDigest hashElements seed codeRoot storageRoot).w0 = .ok id := hnewm
    have hones := tryFromFelt_ok_ones hnew2
    have hvv := tryFromFelt_ok_val hnew2
    refine ⟨by rw [hvv]; exact hones, ?_, ?_⟩
    · have hvr : AccountId.validateSeedDigest
          (computeDigest hashElements seed codeRoot storageRoot) =
          (if (if isRegularAccount (computeDigest hashElements seed codeRoot storageRoot).w0.val
                then REGULAR_ACCOUNT_SEED_DIGEST_MIN_TRAILING_ZEROS
                else FAUCET_SEED_DIGEST_MIN_TRAILING_ZEROS)
              > digestPow (computeDigest hashElements seed codeRoot storageRoot) then
            Except.error (AccountError.seedDigestTooFewTrailingZeros
              (if isRegularAccount (computeDigest hashElements seed codeRoot storageRoot).w0.val
                then REGULAR_ACCOUNT_SEED_DIGEST_MIN_TRAILING_ZEROS
                else FAUCET_SEED_DIGEST_MIN_TRAILING_ZEROS)
              (digestPow (computeDigest hashElements seed codeRoot storageRoot)))
          else Except.ok ()) := rfl
      rw [hvr] at hval
      by_cases hgt : (if isRegularAccount
            (computeDigest hashElements seed codeRoot storageRoot).w0.val
            then REGULAR_ACCOUNT_SEED_DIGEST_MIN_TRAILING_ZEROS
            else FAUCET_SEED_DIGEST_MIN_TRAILING_ZEROS)
          > digestPow (computeDigest hashElements seed codeRoot storageRoot)
      · rw [if_pos hgt] at hval
        cases hval
      · omega
    · rw [fromHex_toHex, hvv]
      exact hnew2

/-- Witness for C6: a constant hash with digest first element 31 and last
element 0 yields a valid id whose hex round-trip is exact. -/
theorem accountId_new_valid_roundtrip_witness :
    AccountId.new c6Hash zeroWord zeroWord zeroWord = .ok c6Id ∧
    MIN_ACCOUNT_ONES ≤ popcount c6Id.val.val ∧
    AccountId.fromHex (AccountId.toHex c6Id) = .ok c6Id := by
  have hnew : AccountId.new c6Hash zeroWord zeroWord zeroWord = .ok c6Id := by decide
  have h := accountId_new_valid_roundtrip c6Hash zeroWord zeroWord zeroWord c6Id hnew
  exact ⟨hnew, h.1, h.2.2⟩
